import Mathlib

/-!
Verification development for the MoltKGMemory knowledge-graph memory store.

The repository ships the FastAPI wrapper (`backend/api.py`) and an example
client (`example.py`); the engine class `MoltKGMemory` itself is not part of
the given sources, so the engine operations below are modelled from the
specification's operation contracts (sections 3, 4 and 7 of the design
document), while the wrapper-level facts (request models, default values,
exception-to-status translation) are embedded from `backend/api.py` directly.

Conventions of the embedding: identifiers are natural numbers, real-valued
quantities (confidence, weight, timestamps measured in days) are rationals,
fallible operations return `Except Err`, and the store is a pair of lists of
node and edge records plus a fresh-id counter.
-/

namespace MoltKG

/-- Modelled from the spec: the error taxonomy of section 7 — `ValidationError`
(malformed input) and `NotFoundError` (operation on a nonexistent id).
`TransactionError` concerns the persistence backend and has no counterpart in
this pure embedding. -/
inductive Err where
  | validation
  | notFound
deriving DecidableEq, Repr

/-- Modelled from the spec: a node record (section 3), with timestamps kept as
rational numbers counting days. -/
structure Node where
  id : Nat
  type : String
  label : String
  content : String
  confidence : ℚ
  tags : List String
  source_ids : List String
  access_count : Nat
  created_at : ℚ
  last_accessed : ℚ
deriving DecidableEq, Repr

/-- Modelled from the spec: an edge record (section 3). `resolution_status` is
`none` unless supplied or defaulted for `contradicts` edges. -/
structure Edge where
  id : Nat
  source : Nat
  target : Nat
  type : String
  weight : ℚ
  context_ids : List String
  resolution_status : Option String
  created_at : ℚ
  last_reinforced : ℚ
deriving DecidableEq, Repr

/-- Modelled from the spec: the persisted state — a nodes relation and an edges
relation, plus a counter generating fresh opaque identifiers. -/
structure Store where
  nextId : Nat
  nodes : List Node
  edges : List Edge
deriving DecidableEq, Repr

/-- Modelled from the spec: the closed set of node types. -/
def allowedNodeTypes : List String := ["entity", "concept", "event", "source"]

/-- Parameters of `createNode`, mirroring the wrapper's `NodeCreate` request
model (api.py lines 49-56) with its defaults. -/
structure NodeParams where
  type : String
  label : String
  content : String := ""
  confidence : ℚ := 1
  tags : List String := []
  source_ids : List String := []
deriving DecidableEq, Repr

/-- Parameters of `createEdge`, mirroring the wrapper's `EdgeCreate` request
model (api.py lines 58-64) with its defaults. -/
structure EdgeParams where
  source : Nat
  target : Nat
  type : String
  weight : ℚ := 1/2
  context_ids : List String := []
  resolution_status : Option String := none
deriving DecidableEq, Repr

/-- Does some node of the store carry this id? -/
def containsNode (id : Nat) (s : Store) : Bool :=
  s.nodes.any (fun n => n.id == id)

/-- Does some edge of the store carry this id? -/
def containsEdge (id : Nat) (s : Store) : Bool :=
  s.edges.any (fun e => e.id == id)

/-- First node of the store carrying this id, if any. -/
def lookupNode (id : Nat) (s : Store) : Option Node :=
  s.nodes.find? (fun n => n.id == id)

/-- First edge of the store carrying this id, if any. -/
def lookupEdge (id : Nat) (s : Store) : Option Edge :=
  s.edges.find? (fun e => e.id == id)

/-- Modelled from the spec: `createNode` (section 4.1). Rejects an unknown
type, an empty label, or a confidence outside `[0,1]` with a validation
error; otherwise appends a fresh node whose `last_accessed` starts at
`created_at` and returns its id. -/
def createNode (p : NodeParams) (now : ℚ) (s : Store) : Except Err (Store × Nat) :=
  if ¬ allowedNodeTypes.contains p.type then
    .error .validation
  else if p.label = "" then
    .error .validation
  else if ¬ (0 ≤ p.confidence ∧ p.confidence ≤ 1) then
    .error .validation
  else
    let n : Node :=
      { id := s.nextId, type := p.type, label := p.label, content := p.content,
        confidence := p.confidence, tags := p.tags, source_ids := p.source_ids,
        access_count := 0, created_at := now, last_accessed := now }
    .ok ({ s with nextId := s.nextId + 1, nodes := s.nodes ++ [n] }, s.nextId)

/-- Modelled from the spec: `createEdge` (section 4.1). Rejects a weight
outside `[0,1]` with a validation error, a missing endpoint with a not-found
error; a `contradicts` edge with no supplied status gets
`resolution_status = "unreviewed"`. -/
def createEdge (p : EdgeParams) (now : ℚ) (s : Store) : Except Err (Store × Nat) :=
  if ¬ (0 ≤ p.weight ∧ p.weight ≤ 1) then
    .error .validation
  else if ¬ (containsNode p.source s ∧ containsNode p.target s) then
    .error .notFound
  else
    let rs : Option String :=
      match p.resolution_status with
      | some r => some r
      | none => if p.type = "contradicts" then some "unreviewed" else none
    let e : Edge :=
      { id := s.nextId, source := p.source, target := p.target, type := p.type,
        weight := p.weight, context_ids := p.context_ids, resolution_status := rs,
        created_at := now, last_reinforced := now }
    .ok ({ s with nextId := s.nextId + 1, edges := s.edges ++ [e] }, s.nextId)

/-- Modelled from the spec: `deleteNode` (section 4.1). When the id is present,
removes the node and every edge referencing it as source or target and
answers `true`; when absent, leaves the store unchanged and answers `false`. -/
def deleteNode (id : Nat) (s : Store) : Store × Bool :=
  if containsNode id s then
    ({ s with nodes := s.nodes.filter (fun n => n.id != id),
              edges := s.edges.filter (fun e => e.source != id && e.target != id) },
     true)
  else (s, false)

/-- Modelled from the spec: `deleteEdge` (section 4.1) — no cascade. -/
def deleteEdge (id : Nat) (s : Store) : Store × Bool :=
  if containsEdge id s then
    ({ s with edges := s.edges.filter (fun e => e.id != id) }, true)
  else (s, false)

/-- Modelled from the spec: the fixed small increment by which `touch` boosts
confidence toward 1 (section 4.3 leaves its exact value open). -/
def touchBoostUnit : ℚ := 1/20

/-- Modelled from the spec: `touch` (section 4.3). Fails with a not-found
error on an absent id; otherwise increments `access_count`, sets
`last_accessed` to now, clamps the boosted confidence at 1, and returns the
updated store and node. -/
def touch (id : Nat) (now : ℚ) (s : Store) : Except Err (Store × Node) :=
  match lookupNode id s with
  | none => .error .notFound
  | some n =>
    let n2 : Node :=
      { n with access_count := n.access_count + 1,
               last_accessed := now,
               confidence := min 1 (n.confidence + touchBoostUnit) }
    .ok ({ s with nodes := s.nodes.map (fun m => if m.id == id then n2 else m) }, n2)

/-- Modelled from the spec: `reinforceEdge` (section 4.3). Fails with a
not-found error on an absent id; otherwise clamps the boosted weight at 1,
stamps `last_reinforced`, and returns the updated store and edge. -/
def reinforceEdge (id : Nat) (boost : ℚ) (now : ℚ) (s : Store) : Except Err (Store × Edge) :=
  match lookupEdge id s with
  | none => .error .notFound
  | some e =>
    let e2 : Edge :=
      { e with weight := min 1 (e.weight + boost), last_reinforced := now }
    .ok ({ s with edges := s.edges.map (fun f => if f.id == id then e2 else f) }, e2)

/-- Leading-match test: does the first list stand at the head of the second? -/
def matchHere : List Char → List Char → Bool
  | [], _ => true
  | _ :: _, [] => false
  | a :: as, b :: bs => a == b && matchHere as bs

/-- Contiguous-sublist test: does the first list occur somewhere inside the
second? -/
def matchSub : List Char → List Char → Bool
  | as, [] => matchHere as []
  | as, b :: bs => matchHere as (b :: bs) || matchSub as bs

/-- Character list of a string with every character lowercased. -/
def lowerChars (s : String) : List Char :=
  s.toList.map Char.toLower

/-- Modelled from the spec: the search predicate (section 4.2) —
case-insensitive substring match against label or content, plus the optional
exact node-type filter. -/
def nodeMatches (q : String) (ntype : Option String) (n : Node) : Bool :=
  (matchSub (lowerChars q) (lowerChars n.label)
      || matchSub (lowerChars q) (lowerChars n.content))
    && (match ntype with
        | none => true
        | some t => n.type == t)

/-- Modelled from the spec: the result-count limit is kept in `[1,100]`. -/
def clampLimit (limit : Nat) : Nat := max 1 (min 100 limit)

/-- Modelled from the spec: `search` with an explicit limit (section 4.2).
An empty query is a validation error; otherwise the matching nodes are
returned, cut off at the bounded limit. -/
def searchWith (q : String) (ntype : Option String) (limit : Nat) (s : Store) :
    Except Err (List Node) :=
  if q = "" then .error .validation
  else .ok ((s.nodes.filter (nodeMatches q ntype)).take (clampLimit limit))

/-- Default result-count limit of `search` (api.py line 184). -/
def searchDefaultLimit : Nat := 20

/-- Modelled from the spec: `search` with the wrapper's default limit of 20. -/
def search (q : String) (ntype : Option String) (s : Store) : Except Err (List Node) :=
  searchWith q ntype searchDefaultLimit s

/-- Configuration of the dreaming pass, mirroring the wrapper's `DreamConfig`
request model (api.py lines 67-71) with its default values. -/
structure DreamConfig where
  decay_rate : ℚ := 0.05
  boost_factor : ℚ := 0.1
  stale_days : ℚ := 7.0
  min_confidence : ℚ := 0.01
deriving DecidableEq, Repr

/-- Range constraints the wrapper's `DreamConfig` fields enforce at the
boundary (api.py lines 67-71): rates and confidences in `[0,1]`,
`stale_days` nonnegative. -/
def DreamConfig.Valid (c : DreamConfig) : Prop :=
  0 ≤ c.decay_rate ∧ c.decay_rate ≤ 1 ∧
  0 ≤ c.boost_factor ∧ c.boost_factor ≤ 1 ∧
  0 ≤ c.stale_days ∧
  0 ≤ c.min_confidence ∧ c.min_confidence ≤ 1

instance (c : DreamConfig) : Decidable c.Valid := by
  unfold DreamConfig.Valid; infer_instance

/-- The wrapper's `DreamConfig()` with every field at its default. -/
def defaultDreamConfig : DreamConfig := {}

/-- Modelled from the spec: the idle-time scaling of the decay formula
(section 4.4 asks only that it be monotonic and bounded; this model uses a
linear ramp reaching 1 after thirty idle days). -/
def scale (d : ℚ) : ℚ := min (d / 30) 1

/-- Days a node has sat idle, measured against the pass's start time. -/
def daysIdle (now : ℚ) (n : Node) : ℚ := now - n.last_accessed

/-- Modelled from the spec: stage 1 of the dreaming pass on one node
(section 4.4). A node idle strictly beyond `stale_days` has its confidence
decayed to `max min_confidence (conf * (1 - decay_rate * scale daysIdle))`;
every other node is untouched. -/
def decayNode (cfg : DreamConfig) (now : ℚ) (n : Node) : Node :=
  if cfg.stale_days < daysIdle now n then
    { n with
      confidence :=
        max cfg.min_confidence
          (n.confidence * (1 - cfg.decay_rate * scale (daysIdle now n))) }
  else n

/-- Stage 1 of the dreaming pass applied across the store. -/
def decayStage (cfg : DreamConfig) (now : ℚ) (s : Store) : Store :=
  { s with nodes := s.nodes.map (decayNode cfg now) }

/-- Identifier of the endpoint of `e` opposite to `n`. -/
def otherEnd (n : Node) (e : Edge) : Nat :=
  if e.source == n.id then e.target else e.source

/-- Modelled from the spec: a co-access edge qualifies to boost `n` when it is
incident to `n`, has type `co_accessed`, and its other endpoint's confidence
stands strictly above the `min_confidence` floor (section 4.4's suggested
floor), read off the post-decay store `s`. -/
def qualifiesEdge (cfg : DreamConfig) (s : Store) (n : Node) (e : Edge) : Bool :=
  (e.source == n.id || e.target == n.id)
    && e.type == "co_accessed"
    && (match lookupNode (otherEnd n e) s with
        | some m => decide (cfg.min_confidence < m.confidence)
        | none => false)

/-- Modelled from the spec: the total boost a node receives in stage 2 — the
qualifying edges' contributions `weight * boost_factor` accumulate by
summation. -/
def boostSum (cfg : DreamConfig) (s : Store) (n : Node) : ℚ :=
  ((s.edges.filter (qualifiesEdge cfg s n)).map (fun e => e.weight * cfg.boost_factor)).sum

/-- Modelled from the spec: stage 2 of the dreaming pass on one node — the
summed boost is added to the stage-1 confidence and clamped at 1. -/
def boostNode (cfg : DreamConfig) (s : Store) (n : Node) : Node :=
  { n with confidence := min 1 (n.confidence + boostSum cfg s n) }

/-- Stage 2 of the dreaming pass applied across the (already decayed) store. -/
def boostStage (cfg : DreamConfig) (s : Store) : Store :=
  { s with nodes := s.nodes.map (boostNode cfg s) }

/-- Modelled from the spec: the mutating part of the dreaming pass
(section 4.4) — decay of stale nodes, then co-access boosting started from
the decayed values. Stage 3 (contradiction surfacing) is a pure read and is
modelled separately by `unreviewedContradictions`. -/
def dream (cfg : DreamConfig) (now : ℚ) (s : Store) : Store :=
  boostStage cfg (decayStage cfg now s)

/-- The image of one node of `s` under the full dreaming pass. -/
def dreamNode (cfg : DreamConfig) (now : ℚ) (s : Store) (n : Node) : Node :=
  boostNode cfg (decayStage cfg now s) (decayNode cfg now n)

/-- Modelled from the spec: stage 3 of the dreaming pass — the `contradicts`
edges still carrying `resolution_status = "unreviewed"`, reported without any
mutation. -/
def unreviewedContradictions (s : Store) : List Edge :=
  s.edges.filter (fun e => e.type == "contradicts"
    && e.resolution_status == some "unreviewed")

/-- The wrapper's `/dream` handler (api.py lines 206-221): a missing request
body is replaced by `DreamConfig()` before the engine's pass runs. -/
def runDream (config : Option DreamConfig) (now : ℚ) (s : Store) : Store :=
  dream (config.getD defaultDreamConfig) now s

/-- HTTP status the wrapper's `create_edge` handler (api.py lines 122-136)
produces for each engine outcome: 201 on creation and 400 on `ValueError`;
the handler catches nothing else, so an engine not-found error (a `KeyError`)
escapes and surfaces as the framework's generic 500. -/
def createEdgeHTTP (p : EdgeParams) (now : ℚ) (s : Store) : Nat :=
  match createEdge p now s with
  | .ok _ => 201
  | .error .validation => 400
  | .error .notFound => 500

/-- Every node field except the mutable `confidence`, gathered in a tuple. -/
def nodeShape (n : Node) :
    Nat × String × String × String × List String × List String × Nat × ℚ × ℚ :=
  (n.id, n.type, n.label, n.content, n.tags, n.source_ids,
   n.access_count, n.created_at, n.last_accessed)

/-- Range invariant on node confidences. -/
def ConfInRange (s : Store) : Prop := ∀ n ∈ s.nodes, 0 ≤ n.confidence ∧ n.confidence ≤ 1

/-- Range invariant on edge weights. -/
def WeightInRange (s : Store) : Prop := ∀ e ∈ s.edges, 0 ≤ e.weight ∧ e.weight ≤ 1

/-- The store's standing range invariant: every confidence and every weight
lies in `[0,1]`. -/
def WF (s : Store) : Prop := ConfInRange s ∧ WeightInRange s

instance (s : Store) : Decidable (ConfInRange s) := by
  unfold ConfInRange; infer_instance

instance (s : Store) : Decidable (WeightInRange s) := by
  unfold WeightInRange; infer_instance

instance (s : Store) : Decidable (WF s) := by
  unfold WF; infer_instance

lemma scale_nonneg {d : ℚ} (hd : 0 ≤ d) : 0 ≤ scale d :=
  le_min (by positivity) zero_le_one

lemma scale_pos {d : ℚ} (hd : 0 < d) : 0 < scale d :=
  lt_min (by positivity) one_pos

lemma scale_le_one (d : ℚ) : scale d ≤ 1 := min_le_right _ _

lemma scale_mono {d1 d2 : ℚ} (h : d1 ≤ d2) : scale d1 ≤ scale d2 :=
  min_le_min (by linarith) le_rfl

lemma dream_edges (cfg : DreamConfig) (now : ℚ) (s : Store) :
    (dream cfg now s).edges = s.edges := rfl

lemma decayStage_edges (cfg : DreamConfig) (now : ℚ) (s : Store) :
    (decayStage cfg now s).edges = s.edges := rfl

lemma dream_nodes_map (cfg : DreamConfig) (now : ℚ) (s : Store) :
    (dream cfg now s).nodes = s.nodes.map (dreamNode cfg now s) := by
  simp [dream, boostStage, decayStage, dreamNode, List.map_map, Function.comp]

lemma decayNode_shape (cfg : DreamConfig) (now : ℚ) (n : Node) :
    nodeShape (decayNode cfg now n) = nodeShape n := by
  unfold decayNode; split <;> rfl

lemma boostNode_shape (cfg : DreamConfig) (s : Store) (n : Node) :
    nodeShape (boostNode cfg s n) = nodeShape n := rfl

/-- Confidence after the decay stage stays in `[0,1]`; moreover in the stale
branch it is at least `min_confidence`. -/
lemma decayNode_confidence_bounds (cfg : DreamConfig) (now : ℚ) (n : Node)
    (hV : cfg.Valid) (h0 : 0 ≤ n.confidence) (h1 : n.confidence ≤ 1) :
    0 ≤ (decayNode cfg now n).confidence ∧ (decayNode cfg now n).confidence ≤ 1 := by
  obtain ⟨hr0, hr1, _, _, hs0, hm0, hm1⟩ := hV
  unfold decayNode
  split
  case isTrue hstale =>
    have hd : (0:ℚ) < daysIdle now n := lt_of_le_of_lt hs0 hstale
    have hsc0 : 0 ≤ scale (daysIdle now n) := scale_nonneg hd.le
    have hsc1 : scale (daysIdle now n) ≤ 1 := scale_le_one _
    have hrs0 : 0 ≤ cfg.decay_rate * scale (daysIdle now n) := mul_nonneg hr0 hsc0
    have hrs1 : cfg.decay_rate * scale (daysIdle now n) ≤ 1 := by
      calc cfg.decay_rate * scale (daysIdle now n) ≤ 1 * 1 := by
            exact mul_le_mul hr1 hsc1 hsc0 zero_le_one
        _ = 1 := by ring
    constructor
    · exact le_trans hm0 (le_max_left _ _)
    · refine max_le hm1 ?_
      have : n.confidence * (1 - cfg.decay_rate * scale (daysIdle now n)) ≤ 1 * 1 := by
        apply mul_le_mul h1 (by linarith) (by linarith) zero_le_one
      linarith
  case isFalse => exact ⟨h0, h1⟩

lemma boostSum_nonneg (cfg : DreamConfig) (s : Store) (n : Node)
    (hbf : 0 ≤ cfg.boost_factor) (hw : ∀ e ∈ s.edges, 0 ≤ e.weight) :
    0 ≤ boostSum cfg s n := by
  unfold boostSum
  apply List.sum_nonneg
  intro x hx
  simp only [List.mem_map] at hx
  obtain ⟨e, he, rfl⟩ := hx
  exact mul_nonneg (hw e (List.mem_filter.mp he).1) hbf

lemma boostNode_confidence_bounds (cfg : DreamConfig) (s : Store) (n : Node)
    (h0 : 0 ≤ n.confidence) (hbs : 0 ≤ boostSum cfg s n) :
    0 ≤ (boostNode cfg s n).confidence ∧ (boostNode cfg s n).confidence ≤ 1 :=
  ⟨le_min zero_le_one (add_nonneg h0 hbs), min_le_left _ _⟩

/-- The dreaming pass preserves the range invariant. -/
lemma dream_wf (cfg : DreamConfig) (now : ℚ) (s : Store)
    (hV : cfg.Valid) (hwf : WF s) : WF (dream cfg now s) := by
  obtain ⟨hc, hw⟩ := hwf
  constructor
  · intro m hm
    rw [dream_nodes_map] at hm
    simp only [List.mem_map] at hm
    obtain ⟨n, hn, rfl⟩ := hm
    have hb := decayNode_confidence_bounds cfg now n hV (hc n hn).1 (hc n hn).2
    have hbs : 0 ≤ boostSum cfg (decayStage cfg now s) (decayNode cfg now n) := by
      apply boostSum_nonneg _ _ _ hV.2.2.1
      rw [decayStage_edges]
      intro e he; exact (hw e he).1
    exact boostNode_confidence_bounds _ _ _ hb.1 hbs
  · intro e he
    rw [dream_edges] at he
    exact hw e he

/-- C4: a dream pass never creates or deletes any node or edge — the edges
relation (hence every edge id, weight and field) and the id counter are
unchanged, and every node keeps every field other than `confidence`; the pass
only rescales confidences. -/
theorem dream_frame (cfg : DreamConfig) (now : ℚ) (s : Store) :
    (dream cfg now s).edges = s.edges ∧
    (dream cfg now s).nextId = s.nextId ∧
    (dream cfg now s).nodes.map nodeShape = s.nodes.map nodeShape ∧
    (dream cfg now s).nodes.map Node.id = s.nodes.map Node.id := by
  refine ⟨rfl, rfl, ?_, ?_⟩
  · rw [dream_nodes_map, List.map_map]
    apply List.map_congr_left
    intro n _
    show nodeShape (dreamNode cfg now s n) = nodeShape n
    unfold dreamNode
    rw [boostNode_shape, decayNode_shape]
  · rw [dream_nodes_map, List.map_map]
    apply List.map_congr_left
    intro n _
    show (dreamNode cfg now s n).id = n.id
    unfold dreamNode boostNode
    have : (decayNode cfg now n).id = n.id := by unfold decayNode; split <;> rfl
    simpa using this

/-- C10: the wrapper's `/dream` handler with no body runs the pass with the
defaults `decay_rate = 0.05`, `boost_factor = 0.1`, `stale_days = 7.0`,
`min_confidence = 0.01`, each inside the range the wrapper's request model
enforces. -/
theorem run_dream_default_config (now : ℚ) (s : Store) :
    runDream none now s = dream defaultDreamConfig now s ∧
    defaultDreamConfig.decay_rate = 0.05 ∧
    defaultDreamConfig.boost_factor = 0.1 ∧
    defaultDreamConfig.stale_days = 7.0 ∧
    defaultDreamConfig.min_confidence = 0.01 ∧
    defaultDreamConfig.Valid := by
  refine ⟨rfl, rfl, rfl, rfl, rfl, ?_⟩
  unfold DreamConfig.Valid defaultDreamConfig
  norm_num

/-- C6: deleting a present node removes it and cascades to exactly the edges
touching it, answering `true`; deleting an absent id answers `false` and
leaves the store untouched. -/
theorem delete_node_contract (id : Nat) (s : Store) :
    (containsNode id s = true →
       (deleteNode id s).2 = true ∧
       (∀ e ∈ (deleteNode id s).1.edges, e.source ≠ id ∧ e.target ≠ id) ∧
       (∀ e ∈ (deleteNode id s).1.edges, e ∈ s.edges) ∧
       (∀ e ∈ s.edges, e.source ≠ id → e.target ≠ id → e ∈ (deleteNode id s).1.edges) ∧
       (∀ n ∈ (deleteNode id s).1.nodes, n.id ≠ id)) ∧
    (containsNode id s = false → deleteNode id s = (s, false)) := by
  constructor
  · intro h
    have hdel : deleteNode id s =
        ({ s with nodes := s.nodes.filter (fun n => n.id != id),
                  edges := s.edges.filter (fun e => e.source != id && e.target != id) },
         true) := by
      unfold deleteNode
      rw [if_pos h]
    rw [hdel]
    refine ⟨rfl, ?_, ?_, ?_, ?_⟩
    · intro e he
      have h2 := (List.mem_filter.mp he).2
      simp only [Bool.and_eq_true, bne_iff_ne, ne_eq] at h2
      exact h2
    · intro e he
      exact (List.mem_filter.mp he).1
    · intro e he h1 h2
      refine List.mem_filter.mpr ⟨he, ?_⟩
      simp [bne_iff_ne, h1, h2]
    · intro n hn
      have h2 := (List.mem_filter.mp hn).2
      simpa [bne_iff_ne] using h2
  · intro h
    unfold deleteNode
    rw [if_neg]
    simp [h]

def c6Node : Node :=
  { id := 0, type := "entity", label := "a", content := "", confidence := 1,
    tags := [], source_ids := [], access_count := 0, created_at := 0, last_accessed := 0 }

def c6Edge : Edge :=
  { id := 1, source := 0, target := 0, type := "supports", weight := 1/2,
    context_ids := [], resolution_status := none, created_at := 0, last_reinforced := 0 }

def c6Store : Store := { nextId := 2, nodes := [c6Node], edges := [c6Edge] }

/-- Witness for C6 on a one-node, one-edge store: id 0 is present (delete
answers true and no surviving edge touches 0), id 5 is absent (delete answers
false and changes nothing). -/
theorem delete_node_contract_witness :
    ((deleteNode 0 c6Store).2 = true ∧
     (∀ e ∈ (deleteNode 0 c6Store).1.edges, e.source ≠ 0 ∧ e.target ≠ 0)) ∧
    deleteNode 5 c6Store = (c6Store, false) := by
  constructor
  · have h := (delete_node_contract 0 c6Store).1 (by decide)
    exact ⟨h.1, h.2.1⟩
  · exact (delete_node_contract 5 c6Store).2 (by decide)

/-- C7: touching a present node increments its access count, stamps
`last_accessed` with the pass time (advancing it under a monotone clock),
clamps the boosted confidence at 1 so it never decreases, and returns the
updated node, which sits in the updated store; touching an absent id fails
with the not-found error. -/
theorem touch_contract (id : Nat) (now : ℚ) (s : Store) :
    (∀ n0, lookupNode id s = some n0 → n0.last_accessed ≤ now → n0.confidence ≤ 1 →
      ∃ s2 n2, touch id now s = .ok (s2, n2) ∧
        n2.access_count = n0.access_count + 1 ∧
        n2.last_accessed = now ∧
        n0.last_accessed ≤ n2.last_accessed ∧
        n2.confidence = min 1 (n0.confidence + touchBoostUnit) ∧
        n0.confidence ≤ n2.confidence ∧
        n2 ∈ s2.nodes ∧
        s2.edges = s.edges) ∧
    (lookupNode id s = none → touch id now s = .error .notFound) := by
  constructor
  · intro n0 hfind hle hc1
    have hfind2 : s.nodes.find? (fun n => n.id == id) = some n0 := hfind
    have hmem : n0 ∈ s.nodes := List.mem_of_find?_eq_some hfind2
    have hpred0 := List.find?_some hfind2
    have hpred : (n0.id == id) = true := hpred0
    unfold touch
    rw [hfind]
    refine ⟨_, _, rfl, rfl, rfl, hle, rfl, ?_, ?_, rfl⟩
    · exact le_min hc1 (le_add_of_nonneg_right (by norm_num [touchBoostUnit]))
    · show _ ∈ List.map _ s.nodes
      refine List.mem_map.mpr ⟨n0, hmem, ?_⟩
      rw [if_pos hpred]
  · intro hnone
    unfold touch
    rw [hnone]

def c7Node : Node :=
  { id := 0, type := "concept", label := "b", content := "", confidence := 1/2,
    tags := [], source_ids := [], access_count := 3, created_at := 0, last_accessed := 0 }

def c7Store : Store := { nextId := 1, nodes := [c7Node], edges := [] }

/-- Witness for C7: touching node 0 of the one-node store at time 1 succeeds
with the advertised updates, and touching absent id 9 is a not-found error. -/
theorem touch_contract_witness :
    (∃ s2 n2, touch 0 1 c7Store = .ok (s2, n2) ∧
        n2.access_count = c7Node.access_count + 1 ∧
        n2.last_accessed = 1 ∧
        c7Node.last_accessed ≤ n2.last_accessed ∧
        n2.confidence = min 1 (c7Node.confidence + touchBoostUnit) ∧
        c7Node.confidence ≤ n2.confidence ∧
        n2 ∈ s2.nodes ∧
        s2.edges = c7Store.edges) ∧
    touch 9 1 c7Store = .error .notFound := by
  constructor
  · exact (touch_contract 0 1 c7Store).1 c7Node rfl
      (by norm_num [c7Node]) (by norm_num [c7Node])
  · exact (touch_contract 9 1 c7Store).2 rfl

lemma matchHere_iff (a b : List Char) : matchHere a b = true ↔ ∃ t, b = a ++ t := by
  induction a generalizing b with
  | nil =>
    constructor
    · intro _; exact ⟨b, rfl⟩
    · intro _; rfl
  | cons x xs ih =>
    cases b with
    | nil => simp [matchHere]
    | cons y ys =>
      rw [show matchHere (x :: xs) (y :: ys) = (x == y && matchHere xs ys) from rfl]
      rw [Bool.and_eq_true, beq_iff_eq, ih]
      constructor
      · rintro ⟨rfl, t, rfl⟩
        exact ⟨t, rfl⟩
      · rintro ⟨t, ht⟩
        rw [List.cons_append] at ht
        injection ht with h1 h2
        exact ⟨h1.symm, t, h2⟩

lemma matchSub_iff (a b : List Char) : matchSub a b = true ↔ ∃ p t, b = p ++ a ++ t := by
  induction b with
  | nil =>
    rw [show matchSub a [] = matchHere a [] from rfl, matchHere_iff]
    constructor
    · rintro ⟨t, ht⟩
      exact ⟨[], t, by simpa using ht⟩
    · rintro ⟨p, t, ht⟩
      have := List.append_eq_nil.mp ht.symm
      have h2 := List.append_eq_nil.mp this.1
      exact ⟨t, by rw [h2.2]; exact this.2.symm ▸ (by simp [this.2])⟩
  | cons y ys ih =>
    rw [show matchSub a (y :: ys) = (matchHere a (y :: ys) || matchSub a ys) from rfl]
    rw [Bool.or_eq_true, matchHere_iff, ih]
    constructor
    · rintro (⟨t, ht⟩ | ⟨p, t, ht⟩)
      · exact ⟨[], t, by simpa using ht⟩
      · exact ⟨y :: p, t, by simp [ht]⟩
    · rintro ⟨p, t, ht⟩
      cases p with
      | nil => exact Or.inl ⟨t, by simpa using ht⟩
      | cons z zs =>
        rw [List.cons_append, List.cons_append] at ht
        injection ht with h1 h2
        exact Or.inr ⟨zs, t, h2⟩

/-- C9: searching with an empty query is a validation error; a non-empty
query yields at most `clampLimit limit` results — the limit bounded into
`[1,100]` — each a store node whose lowercased label or content contains the
lowercased query as a contiguous substring and which passes the optional
type filter; the one-argument `search` uses the default limit 20. -/
theorem search_contract (q : String) (nt : Option String) (limit : Nat) (s : Store) :
    (q = "" → searchWith q nt limit s = .error .validation) ∧
    (q ≠ "" → ∃ res, searchWith q nt limit s = .ok res ∧
       res.length ≤ clampLimit limit ∧
       clampLimit limit = max 1 (min 100 limit) ∧
       1 ≤ clampLimit limit ∧ clampLimit limit ≤ 100 ∧
       (∀ r ∈ res, r ∈ s.nodes ∧
         ((∃ p t, lowerChars r.label = p ++ lowerChars q ++ t) ∨
          (∃ p t, lowerChars r.content = p ++ lowerChars q ++ t)) ∧
         (∀ ty, nt = some ty → r.type = ty))) ∧
    search q nt s = searchWith q nt 20 s := by
  refine ⟨?_, ?_, rfl⟩
  · intro h
    unfold searchWith
    rw [if_pos h]
  · intro h
    unfold searchWith
    rw [if_neg h]
    refine ⟨_, rfl, List.length_take_le _ _, rfl, le_max_left _ _,
      max_le (by norm_num) (min_le_left _ _), ?_⟩
    intro r hr
    have hrf : r ∈ s.nodes.filter (nodeMatches q nt) := List.take_subset _ _ hr
    have hmem := (List.mem_filter.mp hrf).1
    have hmatch := (List.mem_filter.mp hrf).2
    unfold nodeMatches at hmatch
    rw [Bool.and_eq_true, Bool.or_eq_true, matchSub_iff, matchSub_iff] at hmatch
    refine ⟨hmem, hmatch.1, ?_⟩
    intro ty hty
    have h2 := hmatch.2
    rw [hty] at h2
    simpa [beq_iff_eq] using h2

def c9Node : Node :=
  { id := 0, type := "concept", label := "Memory Vault", content := "", confidence := 1,
    tags := [], source_ids := [], access_count := 0, created_at := 0, last_accessed := 0 }

def c9Store : Store := { nextId := 1, nodes := [c9Node], edges := [] }

def c9Query : String := "MEM"

def c9EmptyQuery : String := ""

/-- Labels of a successful search result, the empty list on an error. -/
def searchLabels (r : Except Err (List Node)) : List String :=
  match r with
  | .ok l => l.map Node.label
  | .error _ => []

/-- Witness for C9: the empty query errors; the query `MEM` on a one-node
store succeeds within the bounded limit, and evaluates to exactly the node
labelled `Memory Vault`. -/
theorem search_contract_witness :
    searchWith c9EmptyQuery none 20 c9Store = .error .validation ∧
    (∃ res, searchWith c9Query none 20 c9Store = .ok res ∧
       res.length ≤ clampLimit 20) ∧
    searchLabels (searchWith c9Query none 20 c9Store) = [c9Node.label] := by
  refine ⟨(search_contract c9EmptyQuery none 20 c9Store).1 rfl, ?_, by decide⟩
  obtain ⟨res, hok, hlen, -⟩ :=
    (search_contract c9Query none 20 c9Store).2.1 (by decide)
  exact ⟨res, hok, hlen⟩

def c8Node : Node :=
  { id := 0, type := "entity", label := "n0", content := "", confidence := 1,
    tags := [], source_ids := [], access_count := 0, created_at := 0, last_accessed := 0 }

def c8Store : Store := { nextId := 1, nodes := [c8Node], edges := [] }

/-- Edge request naming the absent node 5 as target. -/
def c8MissingTarget : EdgeParams :=
  { source := 0, target := 5, type := "co_accessed", weight := 1/2 }

/-- Edge request with an out-of-range weight. -/
def c8BadWeight : EdgeParams :=
  { source := 0, target := 0, type := "supports", weight := 2 }

/-- Contradiction edge request with the resolution status omitted. -/
def c8Contra : EdgeParams :=
  { source := 0, target := 0, type := "contradicts", weight := 1/2 }

/-- The self-loop contradiction edge the request above creates, with the
defaulted `unreviewed` status. -/
def c8ContraEdge : Edge :=
  { id := 1, source := 0, target := 0, type := "contradicts", weight := 1/2,
    context_ids := [], resolution_status := some "unreviewed",
    created_at := 0, last_reinforced := 0 }

/-- The store after the contradiction edge is created. -/
def c8StoreAfter : Store := { nextId := 2, nodes := [c8Node], edges := [c8ContraEdge] }

/-- C8, evaluated at the failing input: an edge whose target does not exist
makes the engine fail with the not-found error, but the wrapper's
`create_edge` handler — which catches only `ValueError` — surfaces it as
500, not the 404 the contract promises. The other legs of the claim hold:
an out-of-range weight is a validation error reported as 400, and a
`contradicts` edge created with no status is stored as `unreviewed`; on the
failing inputs no edge is created (the operation returns no store at all). -/
theorem create_edge_http_contract :
    createEdge c8MissingTarget 0 c8Store = .error .notFound ∧
    createEdgeHTTP c8MissingTarget 0 c8Store = 500 ∧
    createEdgeHTTP c8MissingTarget 0 c8Store ≠ 404 ∧
    createEdge c8BadWeight 0 c8Store = .error .validation ∧
    createEdgeHTTP c8BadWeight 0 c8Store = 400 ∧
    (∃ s2 eid, createEdge c8Contra 0 c8Store = .ok (s2, eid) ∧
       ∃ e ∈ s2.edges, e.id = eid ∧ e.resolution_status = some "unreviewed") := by
  have h1 : createEdge c8MissingTarget 0 c8Store = .error .notFound := by
    unfold createEdge
    rw [if_neg (by norm_num [c8MissingTarget]), if_pos (by decide)]
  have h4 : createEdge c8BadWeight 0 c8Store = .error .validation := by
    unfold createEdge
    rw [if_pos (by norm_num [c8BadWeight])]
  have h6 : createEdge c8Contra 0 c8Store = .ok (c8StoreAfter, 1) := by
    unfold createEdge
    rw [if_neg (by norm_num [c8Contra]), if_neg (by decide)]
    rfl
  refine ⟨h1, ?_, ?_, h4, ?_, ?_⟩
  · unfold createEdgeHTTP
    rw [h1]
  · unfold createEdgeHTTP
    rw [h1]
    decide
  · unfold createEdgeHTTP
    rw [h4]
  · refine ⟨_, _, h6, ?_⟩
    refine ⟨_, List.mem_singleton.mpr rfl, rfl, rfl⟩

lemma createNode_wf (p : NodeParams) (now : ℚ) (s s2 : Store) (nid : Nat)
    (h : createNode p now s = .ok (s2, nid)) (hwf : WF s) : WF s2 := by
  unfold createNode at h
  split at h
  · exact Except.noConfusion h
  split at h
  · exact Except.noConfusion h
  split at h
  · exact Except.noConfusion h
  case isFalse hconf =>
  rw [not_not] at hconf
  simp only [Except.ok.injEq, Prod.mk.injEq] at h
  obtain ⟨h1, -⟩ := h
  subst h1
  constructor
  · intro n hn
    rcases List.mem_append.mp hn with hold | hnew
    · exact hwf.1 n hold
    · rw [List.mem_singleton.mp hnew]
      exact hconf
  · intro e he
    exact hwf.2 e he

lemma createEdge_wf (p : EdgeParams) (now : ℚ) (s s2 : Store) (eid : Nat)
    (h : createEdge p now s = .ok (s2, eid)) (hwf : WF s) : WF s2 := by
  unfold createEdge at h
  split at h
  case isTrue => exact Except.noConfusion h
  case isFalse hw =>
  split at h
  case isTrue => exact Except.noConfusion h
  case isFalse =>
  rw [not_not] at hw
  simp only [Except.ok.injEq, Prod.mk.injEq] at h
  obtain ⟨h1, -⟩ := h
  subst h1
  constructor
  · intro n hn
    exact hwf.1 n hn
  · intro e he
    rcases List.mem_append.mp he with hold | hnew
    · exact hwf.2 e hold
    · rw [List.mem_singleton.mp hnew]
      exact hw

lemma touch_wf (id : Nat) (now : ℚ) (s s2 : Store) (n2 : Node)
    (h : touch id now s = .ok (s2, n2)) (hwf : WF s) : WF s2 := by
  unfold touch at h
  cases hfind : lookupNode id s with
  | none =>
    rw [hfind] at h
    exact Except.noConfusion h
  | some n0 =>
    rw [hfind] at h
    simp only [Except.ok.injEq, Prod.mk.injEq] at h
    obtain ⟨h1, -⟩ := h
    subst h1
    have hfind2 : s.nodes.find? (fun n => n.id == id) = some n0 := hfind
    have hc0 := hwf.1 n0 (List.mem_of_find?_eq_some hfind2)
    constructor
    · intro m hm
      simp only [List.mem_map] at hm
      obtain ⟨m0, hm0, rfl⟩ := hm
      by_cases hid : (m0.id == id) = true
      · rw [if_pos hid]
        refine ⟨le_min zero_le_one ?_, min_le_left _ _⟩
        exact add_nonneg hc0.1 (by norm_num [touchBoostUnit])
      · rw [if_neg hid]
        exact hwf.1 m0 hm0
    · intro e he
      exact hwf.2 e he

lemma reinforceEdge_wf (id : Nat) (b now : ℚ) (s s2 : Store) (e2 : Edge)
    (hb : 0 ≤ b) (h : reinforceEdge id b now s = .ok (s2, e2)) (hwf : WF s) : WF s2 := by
  unfold reinforceEdge at h
  cases hfind : lookupEdge id s with
  | none =>
    rw [hfind] at h
    exact Except.noConfusion h
  | some e0 =>
    rw [hfind] at h
    simp only [Except.ok.injEq, Prod.mk.injEq] at h
    obtain ⟨h1, -⟩ := h
    subst h1
    have hfind2 : s.edges.find? (fun e => e.id == id) = some e0 := hfind
    have hw0 := hwf.2 e0 (List.mem_of_find?_eq_some hfind2)
    constructor
    · intro n hn
      exact hwf.1 n hn
    · intro f hf
      simp only [List.mem_map] at hf
      obtain ⟨f0, hf0, rfl⟩ := hf
      by_cases hid : (f0.id == id) = true
      · rw [if_pos hid]
        exact ⟨le_min zero_le_one (add_nonneg hw0.1 hb), min_le_left _ _⟩
      · rw [if_neg hid]
        exact hwf.2 f0 hf0

lemma deleteNode_wf (id : Nat) (s : Store) (hwf : WF s) : WF (deleteNode id s).1 := by
  unfold deleteNode
  split
  · refine ⟨?_, ?_⟩
    · intro n hn
      exact hwf.1 n (List.mem_filter.mp hn).1
    · intro e he
      exact hwf.2 e (List.mem_filter.mp he).1
  · exact hwf

lemma deleteEdge_wf (id : Nat) (s : Store) (hwf : WF s) : WF (deleteEdge id s).1 := by
  unfold deleteEdge
  split
  · refine ⟨?_, ?_⟩
    · intro n hn
      exact hwf.1 n hn
    · intro e he
      exact hwf.2 e (List.mem_filter.mp he).1
  · exact hwf

/-- C3: every operation keeps every node confidence and every edge weight in
`[0,1]` — mutations (`touch`, `reinforceEdge`, the dreaming pass) clamp, the
deletes only remove — while outright out-of-range input at creation is
rejected as a validation error. -/
theorem operations_preserve_ranges (s : Store) (hwf : WF s) :
    (∀ p now s2 nid, createNode p now s = .ok (s2, nid) → WF s2) ∧
    (∀ p now s2 eid, createEdge p now s = .ok (s2, eid) → WF s2) ∧
    (∀ id now s2 n2, touch id now s = .ok (s2, n2) → WF s2) ∧
    (∀ id b now s2 e2, 0 ≤ b → reinforceEdge id b now s = .ok (s2, e2) → WF s2) ∧
    (∀ cfg now, DreamConfig.Valid cfg → WF (dream cfg now s)) ∧
    (∀ id, WF (deleteNode id s).1) ∧
    (∀ id, WF (deleteEdge id s).1) ∧
    (∀ p now, ¬ (0 ≤ p.confidence ∧ p.confidence ≤ 1) →
       createNode p now s = .error .validation) ∧
    (∀ p now, ¬ (0 ≤ p.weight ∧ p.weight ≤ 1) →
       createEdge p now s = .error .validation) := by
  refine ⟨?_, ?_, ?_, ?_, ?_, ?_, ?_, ?_, ?_⟩
  · intro p now s2 nid h
    exact createNode_wf p now s s2 nid h hwf
  · intro p now s2 eid h
    exact createEdge_wf p now s s2 eid h hwf
  · intro id now s2 n2 h
    exact touch_wf id now s s2 n2 h hwf
  · intro id b now s2 e2 hb h
    exact reinforceEdge_wf id b now s s2 e2 hb h hwf
  · intro cfg now hV
    exact dream_wf cfg now s hV hwf
  · intro id
    exact deleteNode_wf id s hwf
  · intro id
    exact deleteEdge_wf id s hwf
  · intro p now hbad
    unfold createNode
    split_ifs <;> rfl
  · intro p now hbad
    unfold createEdge
    split_ifs
    rfl

def c3Node : Node :=
  { id := 0, type := "entity", label := "w", content := "", confidence := 1,
    tags := [], source_ids := [], access_count := 0, created_at := 0, last_accessed := 0 }

def c3Edge : Edge :=
  { id := 1, source := 0, target := 0, type := "co_accessed", weight := 1,
    context_ids := [], resolution_status := none, created_at := 0, last_reinforced := 0 }

def c3Store : Store := { nextId := 2, nodes := [c3Node], edges := [c3Edge] }

/-- Witness for C3 on a concrete well-formed store: the invariant is
decidably true of the store, holds after a default-config dream pass, and
holds after a successful touch of node 0. -/
theorem operations_preserve_ranges_witness :
    WF c3Store ∧
    WF (dream defaultDreamConfig 10 c3Store) ∧
    (∃ s2 n2, touch 0 10 c3Store = .ok (s2, n2) ∧ WF s2) := by
  have hwf : WF c3Store := by decide
  have h := operations_preserve_ranges c3Store hwf
  refine ⟨hwf, h.2.2.2.2.1 defaultDreamConfig 10 ?_, ?_⟩
  · unfold DreamConfig.Valid defaultDreamConfig
    norm_num
  · have hok : ∃ s2 n2, touch 0 10 c3Store = .ok (s2, n2) := ⟨_, _, rfl⟩
    obtain ⟨s2, n2, heq⟩ := hok
    exact ⟨s2, n2, heq, h.2.2.1 0 10 s2 n2 heq⟩

lemma boostSum_eq_zero (cfg : DreamConfig) (s : Store) (n : Node)
    (h : ∀ e ∈ s.edges, qualifiesEdge cfg s n e = false) :
    boostSum cfg s n = 0 := by
  unfold boostSum
  have hf : s.edges.filter (qualifiesEdge cfg s n) = [] := by
    rw [List.filter_eq_nil_iff]
    intro e he
    simp [h e he]
  rw [hf]
  rfl

/-- C1 (amended: the strict decrease additionally needs `decay_rate > 0`; at
the in-range configuration `decay_rate = 0` the formula leaves the confidence
unchanged): a node idle beyond `stale_days` with no qualifying co-access edge
has its confidence set to
`max min_confidence (conf * (1 - decay_rate * scale daysIdle))` with `scale`
monotone, strictly below the old confidence yet never below
`min_confidence`, given `min_confidence < conf`. -/
theorem dream_decay_below_old_above_min
    (cfg : DreamConfig) (now : ℚ) (s : Store) (n : Node)
    (hV : cfg.Valid) (hr : 0 < cfg.decay_rate)
    (hn : n ∈ s.nodes)
    (hstale : cfg.stale_days < daysIdle now n)
    (hc1 : n.confidence ≤ 1)
    (hgt : cfg.min_confidence < n.confidence)
    (hnoq : ∀ e ∈ s.edges,
      qualifiesEdge cfg (decayStage cfg now s) (decayNode cfg now n) e = false) :
    (dreamNode cfg now s n).confidence
        = max cfg.min_confidence
            (n.confidence * (1 - cfg.decay_rate * scale (daysIdle now n))) ∧
    (dreamNode cfg now s n).confidence < n.confidence ∧
    cfg.min_confidence ≤ (dreamNode cfg now s n).confidence ∧
    dreamNode cfg now s n ∈ (dream cfg now s).nodes ∧
    (∀ d1 d2 : ℚ, d1 ≤ d2 → scale d1 ≤ scale d2) := by
  obtain ⟨hr0, hr1, hb0, hb1, hs0, hm0, hm1⟩ := hV
  have hc0 : 0 ≤ n.confidence := le_trans hm0 (le_of_lt hgt)
  have hd : (0:ℚ) < daysIdle now n := lt_of_le_of_lt hs0 hstale
  have hdecconf : (decayNode cfg now n).confidence
      = max cfg.min_confidence
          (n.confidence * (1 - cfg.decay_rate * scale (daysIdle now n))) := by
    unfold decayNode
    rw [if_pos hstale]
  have hdec1 : (decayNode cfg now n).confidence ≤ 1 :=
    (decayNode_confidence_bounds cfg now n ⟨hr0, hr1, hb0, hb1, hs0, hm0, hm1⟩ hc0 hc1).2
  have hbz : boostSum cfg (decayStage cfg now s) (decayNode cfg now n) = 0 := by
    apply boostSum_eq_zero
    intro e he
    exact hnoq e he
  have himg : (dreamNode cfg now s n).confidence
      = min 1 ((decayNode cfg now n).confidence
          + boostSum cfg (decayStage cfg now s) (decayNode cfg now n)) := rfl
  rw [hbz, add_zero, min_eq_right hdec1] at himg
  refine ⟨by rw [himg, hdecconf], ?_, ?_, ?_, fun d1 d2 h => scale_mono h⟩
  · rw [himg, hdecconf]
    have hcpos : 0 < n.confidence := lt_of_le_of_lt hm0 hgt
    have hx : 0 < cfg.decay_rate * scale (daysIdle now n) := mul_pos hr (scale_pos hd)
    have hlt : n.confidence * (1 - cfg.decay_rate * scale (daysIdle now n)) < n.confidence := by
      have hrw : n.confidence * (1 - cfg.decay_rate * scale (daysIdle now n))
          = n.confidence - n.confidence * (cfg.decay_rate * scale (daysIdle now n)) := by
        ring
      rw [hrw]
      have := mul_pos hcpos hx
      linarith
    exact max_lt hgt hlt
  · rw [himg, hdecconf]
    exact le_max_left _ _
  · rw [dream_nodes_map]
    exact List.mem_map_of_mem _ hn

def c1Node : Node :=
  { id := 0, type := "entity", label := "x", content := "", confidence := 1,
    tags := [], source_ids := [], access_count := 0, created_at := 0, last_accessed := 0 }

def c1Store : Store := { nextId := 1, nodes := [c1Node], edges := [] }

/-- Witness for C1: under the default configuration, a node of confidence 1
idle for ten days (beyond the seven stale days) on an edgeless store ends
strictly below 1 and at or above `min_confidence`. -/
theorem dream_decay_below_old_above_min_witness :
    (dreamNode defaultDreamConfig 10 c1Store c1Node).confidence < c1Node.confidence ∧
    defaultDreamConfig.min_confidence
      ≤ (dreamNode defaultDreamConfig 10 c1Store c1Node).confidence := by
  have h := dream_decay_below_old_above_min defaultDreamConfig 10 c1Store c1Node
    (by unfold DreamConfig.Valid defaultDreamConfig; norm_num)
    (by norm_num [defaultDreamConfig])
    (by simp [c1Store])
    (by norm_num [defaultDreamConfig, daysIdle, c1Node])
    (by norm_num [c1Node])
    (by norm_num [defaultDreamConfig, c1Node])
    (by intro e he; simp [c1Store] at he)
  exact ⟨h.2.1, h.2.2.1⟩

/-- The in-range configuration with a zero decay rate. -/
def c1ZeroCfg : DreamConfig :=
  { decay_rate := 0, boost_factor := 0.1, stale_days := 7.0, min_confidence := 0.01 }

/-- C1 counterexample: at the in-range configuration `decay_rate = 0`, a node
idle beyond `stale_days`, with confidence above `min_confidence` and no
qualifying co-access edge, ends the pass with exactly its old confidence —
the claimed strict decrease fails. -/
theorem dream_decay_zero_rate_cex :
    c1ZeroCfg.Valid ∧
    c1ZeroCfg.stale_days < daysIdle 10 c1Node ∧
    c1ZeroCfg.min_confidence < c1Node.confidence ∧
    (∀ e ∈ c1Store.edges,
      qualifiesEdge c1ZeroCfg (decayStage c1ZeroCfg 10 c1Store)
        (decayNode c1ZeroCfg 10 c1Node) e = false) ∧
    dreamNode c1ZeroCfg 10 c1Store c1Node ∈ (dream c1ZeroCfg 10 c1Store).nodes ∧
    (dreamNode c1ZeroCfg 10 c1Store c1Node).confidence = c1Node.confidence ∧
    ¬ (dreamNode c1ZeroCfg 10 c1Store c1Node).confidence < c1Node.confidence := by
  have hbz : boostSum c1ZeroCfg (decayStage c1ZeroCfg 10 c1Store)
      (decayNode c1ZeroCfg 10 c1Node) = 0 := by
    apply boostSum_eq_zero
    intro e he
    simp [decayStage, c1Store] at he
  have h3 : (decayNode c1ZeroCfg 10 c1Node).confidence = 1 := by
    unfold decayNode
    rw [if_pos (by norm_num [c1ZeroCfg, daysIdle, c1Node])]
    show max c1ZeroCfg.min_confidence
        (c1Node.confidence * (1 - c1ZeroCfg.decay_rate * scale (daysIdle 10 c1Node))) = 1
    rw [show c1ZeroCfg.decay_rate = 0 from rfl, zero_mul, sub_zero,
        show c1Node.confidence = 1 from rfl, mul_one]
    exact max_eq_right (by norm_num [c1ZeroCfg])
  have hval : (dreamNode c1ZeroCfg 10 c1Store c1Node).confidence = c1Node.confidence := by
    have h1 : (dreamNode c1ZeroCfg 10 c1Store c1Node).confidence
        = min 1 ((decayNode c1ZeroCfg 10 c1Node).confidence
            + boostSum c1ZeroCfg (decayStage c1ZeroCfg 10 c1Store)
                (decayNode c1ZeroCfg 10 c1Node)) := rfl
    rw [hbz, add_zero, h3] at h1
    rw [h1, show c1Node.confidence = 1 from rfl, min_self]
  refine ⟨by unfold DreamConfig.Valid c1ZeroCfg; norm_num,
    by norm_num [c1ZeroCfg, daysIdle, c1Node],
    by norm_num [c1ZeroCfg, c1Node],
    ?_, ?_, hval, ?_⟩
  · intro e he
    simp [c1Store] at he
  · rw [dream_nodes_map]
    exact List.mem_map_of_mem _ (by simp [c1Store])
  · rw [hval]
    exact lt_irrefl _

/-- C2: the boost stage starts from the confidence the decay stage produced,
the qualifying co-access edges' boosts accumulate by summation before the
clamp at 1, and a stale node with a qualifying edge ends the pass at or
above `max min_confidence decayed_value`. -/
theorem dream_boost_after_decay
    (cfg : DreamConfig) (now : ℚ) (s : Store) (n : Node)
    (hV : cfg.Valid) (hwf : WF s) (hn : n ∈ s.nodes)
    (hstale : cfg.stale_days < daysIdle now n)
    (_hq : ∃ e ∈ s.edges,
      qualifiesEdge cfg (decayStage cfg now s) (decayNode cfg now n) e = true) :
    (dreamNode cfg now s n).confidence
        = min 1 ((decayNode cfg now n).confidence
            + ((s.edges.filter
                (qualifiesEdge cfg (decayStage cfg now s) (decayNode cfg now n))).map
                (fun e => e.weight * cfg.boost_factor)).sum) ∧
    (decayNode cfg now n).confidence
        = max cfg.min_confidence
            (n.confidence * (1 - cfg.decay_rate * scale (daysIdle now n))) ∧
    max cfg.min_confidence (decayNode cfg now n).confidence
        ≤ (dreamNode cfg now s n).confidence ∧
    dreamNode cfg now s n ∈ (dream cfg now s).nodes := by
  obtain ⟨hr0, hr1, hb0, hb1, hs0, hm0, hm1⟩ := hV
  have hc := hwf.1 n hn
  have hdecb :=
    decayNode_confidence_bounds cfg now n ⟨hr0, hr1, hb0, hb1, hs0, hm0, hm1⟩ hc.1 hc.2
  have hbs0 : 0 ≤ boostSum cfg (decayStage cfg now s) (decayNode cfg now n) := by
    apply boostSum_nonneg _ _ _ hb0
    intro e he
    exact (hwf.2 e he).1
  have hdecmc : cfg.min_confidence ≤ (decayNode cfg now n).confidence := by
    unfold decayNode
    rw [if_pos hstale]
    exact le_max_left _ _
  refine ⟨rfl, ?_, ?_, ?_⟩
  · unfold decayNode
    rw [if_pos hstale]
  · refine max_le (le_min hm1 ?_) (le_min hdecb.2 (le_add_of_nonneg_right hbs0))
    calc cfg.min_confidence ≤ (decayNode cfg now n).confidence := hdecmc
      _ ≤ (decayNode cfg now n).confidence
            + boostSum cfg (decayStage cfg now s) (decayNode cfg now n) :=
        le_add_of_nonneg_right hbs0
  · rw [dream_nodes_map]
    exact List.mem_map_of_mem _ hn

/-- An aggressive but in-range configuration used by the boost witness. -/
def c2Cfg : DreamConfig :=
  { decay_rate := 1, boost_factor := 1, stale_days := 7, min_confidence := 0 }

def c2NodeA : Node :=
  { id := 0, type := "entity", label := "a", content := "", confidence := 1,
    tags := [], source_ids := [], access_count := 0, created_at := 0, last_accessed := 0 }

def c2NodeB : Node :=
  { id := 1, type := "entity", label := "b", content := "", confidence := 1,
    tags := [], source_ids := [], access_count := 0, created_at := 0, last_accessed := 10 }

def c2Edge : Edge :=
  { id := 2, source := 0, target := 1, type := "co_accessed", weight := 1,
    context_ids := [], resolution_status := none, created_at := 0, last_reinforced := 0 }

def c2Store : Store := { nextId := 3, nodes := [c2NodeA, c2NodeB], edges := [c2Edge] }

/-- Witness for C2: node 0 — stale for ten days but co-accessed with the
fresh, fully-confident node 1 — is decayed and then boosted, ending at or
above `max min_confidence decayed_value`. -/
theorem dream_boost_after_decay_witness :
    max c2Cfg.min_confidence (decayNode c2Cfg 10 c2NodeA).confidence
      ≤ (dreamNode c2Cfg 10 c2Store c2NodeA).confidence ∧
    dreamNode c2Cfg 10 c2Store c2NodeA ∈ (dream c2Cfg 10 c2Store).nodes := by
  have hdecB : decayNode c2Cfg 10 c2NodeB = c2NodeB := by
    unfold decayNode
    rw [if_neg (by norm_num [c2Cfg, daysIdle, c2NodeB])]
  have hdstage : (decayStage c2Cfg 10 c2Store).nodes
      = [decayNode c2Cfg 10 c2NodeA, c2NodeB] := by
    show c2Store.nodes.map (decayNode c2Cfg 10) = _
    simp [c2Store, hdecB]
  have hAid : (decayNode c2Cfg 10 c2NodeA).id = 0 := by
    unfold decayNode
    split <;> rfl
  have hlook1 : lookupNode 1 (decayStage c2Cfg 10 c2Store) = some c2NodeB := by
    unfold lookupNode
    rw [hdstage, List.find?_cons_of_neg _ (by simp [hAid]),
        List.find?_cons_of_pos _ (by simp [c2NodeB])]
  have hq1 : qualifiesEdge c2Cfg (decayStage c2Cfg 10 c2Store)
      (decayNode c2Cfg 10 c2NodeA) c2Edge = true := by
    unfold qualifiesEdge
    have hother : otherEnd (decayNode c2Cfg 10 c2NodeA) c2Edge = 1 := by
      unfold otherEnd
      simp [c2Edge, hAid]
    rw [hother, hlook1]
    simp [c2Edge, hAid, decide_eq_true_eq]
    norm_num [c2Cfg, c2NodeB]
  have h := dream_boost_after_decay c2Cfg 10 c2Store c2NodeA
    (by unfold DreamConfig.Valid c2Cfg; norm_num)
    (by decide)
    (by simp [c2Store])
    (by norm_num [c2Cfg, daysIdle, c2NodeA])
    ⟨c2Edge, by simp [c2Store], hq1⟩
  exact ⟨h.2.2.1, h.2.2.2⟩

lemma dreamNode_id (cfg : DreamConfig) (now : ℚ) (s : Store) (n : Node) :
    (dreamNode cfg now s n).id = n.id := by
  unfold dreamNode boostNode decayNode
  split <;> rfl

lemma dreamNode_last_accessed (cfg : DreamConfig) (now : ℚ) (s : Store) (n : Node) :
    (dreamNode cfg now s n).last_accessed = n.last_accessed := by
  unfold dreamNode boostNode decayNode
  split <;> rfl

/-- C5 (amended: the second-pass no-op for a node already at
`min_confidence` or already not stale additionally requires the node to have
no qualifying co-access edge — the boost stage runs regardless of staleness,
so a node with a qualifying edge to a confident neighbor is boosted again by
the second pass): running the pass again with the same configuration and
start time on the unchanged output leaves every such settled node's
confidence unchanged. -/
theorem dream_second_pass_settled_nodes
    (cfg : DreamConfig) (now : ℚ) (s0 : Store)
    (hV : cfg.Valid) (hwf : WF s0) :
    ∀ n ∈ (dream cfg now s0).nodes,
      (n.confidence = cfg.min_confidence ∨ daysIdle now n ≤ cfg.stale_days) →
      (∀ e ∈ (dream cfg now s0).edges,
        qualifiesEdge cfg (decayStage cfg now (dream cfg now s0))
          (decayNode cfg now n) e = false) →
      (dreamNode cfg now (dream cfg now s0) n).confidence = n.confidence ∧
      dreamNode cfg now (dream cfg now s0) n ∈ (dream cfg now (dream cfg now s0)).nodes := by
  obtain ⟨hr0, hr1, hb0, hb1, hs0, hm0, hm1⟩ := hV
  intro n hn hcase hnoq
  have hwf1 : WF (dream cfg now s0) :=
    dream_wf cfg now s0 ⟨hr0, hr1, hb0, hb1, hs0, hm0, hm1⟩ hwf
  have hc := hwf1.1 n hn
  have hbz : boostSum cfg (decayStage cfg now (dream cfg now s0))
      (decayNode cfg now n) = 0 :=
    boostSum_eq_zero _ _ _ (fun e he => hnoq e he)
  have hdec : (decayNode cfg now n).confidence = n.confidence := by
    rcases hcase with hmc | hfresh
    · unfold decayNode
      split
      case isTrue hstale =>
        show max cfg.min_confidence
            (n.confidence * (1 - cfg.decay_rate * scale (daysIdle now n)))
          = n.confidence
        rw [hmc]
        have hd0 : (0:ℚ) < daysIdle now n := lt_of_le_of_lt hs0 hstale
        have hsc0 : 0 ≤ scale (daysIdle now n) := scale_nonneg hd0.le
        have hsc1 : scale (daysIdle now n) ≤ 1 := scale_le_one _
        have hx0 : 0 ≤ cfg.decay_rate * scale (daysIdle now n) := mul_nonneg hr0 hsc0
        have hx1 : cfg.decay_rate * scale (daysIdle now n) ≤ 1 := by
          calc cfg.decay_rate * scale (daysIdle now n)
              ≤ 1 * 1 := mul_le_mul hr1 hsc1 hsc0 zero_le_one
            _ = 1 := one_mul 1
        refine max_eq_left ?_
        have hmul : cfg.min_confidence * (1 - cfg.decay_rate * scale (daysIdle now n))
            ≤ cfg.min_confidence * 1 :=
          mul_le_mul_of_nonneg_left (by linarith) hm0
        linarith
      case isFalse => rfl
    · unfold decayNode
      rw [if_neg (not_lt.mpr hfresh)]
  have h1 : (dreamNode cfg now (dream cfg now s0) n).confidence
      = min 1 ((decayNode cfg now n).confidence
          + boostSum cfg (decayStage cfg now (dream cfg now s0))
              (decayNode cfg now n)) := rfl
  rw [hbz, add_zero, hdec, min_eq_right hc.2] at h1
  refine ⟨h1, ?_⟩
  rw [dream_nodes_map]
  exact List.mem_map_of_mem _ hn

def c5wNode : Node :=
  { id := 0, type := "entity", label := "w", content := "", confidence := 1,
    tags := [], source_ids := [], access_count := 0, created_at := 10, last_accessed := 10 }

def c5wStore : Store := { nextId := 1, nodes := [c5wNode], edges := [] }

/-- Witness for C5: on an edgeless one-node store whose node is freshly
accessed, the second default-config pass leaves the first pass's confidence
unchanged. -/
theorem dream_second_pass_settled_witness :
    (dreamNode defaultDreamConfig 10 (dream defaultDreamConfig 10 c5wStore)
        (dreamNode defaultDreamConfig 10 c5wStore c5wNode)).confidence
      = (dreamNode defaultDreamConfig 10 c5wStore c5wNode).confidence := by
  have h := dream_second_pass_settled_nodes defaultDreamConfig 10 c5wStore
    (by unfold DreamConfig.Valid defaultDreamConfig; norm_num)
    (by decide)
    (dreamNode defaultDreamConfig 10 c5wStore c5wNode)
    (by rw [dream_nodes_map]; exact List.mem_map_of_mem _ (by simp [c5wStore]))
    (Or.inr (by
      unfold daysIdle
      rw [dreamNode_last_accessed]
      norm_num [defaultDreamConfig, c5wNode]))
    (by intro e he; simp [dream, boostStage, decayStage, c5wStore] at he)
  exact h.1

/-- Configuration for the second-pass counterexample: no decay, full boost
factor, everything in range. -/
def c5Cfg : DreamConfig :=
  { decay_rate := 0, boost_factor := 1, stale_days := 7, min_confidence := 0 }

def c5NodeA : Node :=
  { id := 0, type := "entity", label := "a", content := "", confidence := 0,
    tags := [], source_ids := [], access_count := 0, created_at := 10, last_accessed := 10 }

def c5NodeB : Node :=
  { id := 1, type := "entity", label := "b", content := "", confidence := 1,
    tags := [], source_ids := [], access_count := 0, created_at := 10, last_accessed := 10 }

def c5Edge : Edge :=
  { id := 2, source := 0, target := 1, type := "co_accessed", weight := 1/4,
    context_ids := [], resolution_status := none, created_at := 10, last_reinforced := 10 }

def c5Store : Store := { nextId := 3, nodes := [c5NodeA, c5NodeB], edges := [c5Edge] }

/-- C5 counterexample: node 0 is freshly accessed (hence already not stale)
yet holds a qualifying co-access edge to the confident node 1; the first
pass boosts it to 1/4 and the second pass — same configuration, unchanged
graph — boosts it again to 1/2, so the second pass is not a no-op for it. -/
theorem dream_second_pass_cex :
    c5Cfg.Valid ∧
    (∃ n1, lookupNode 0 (dream c5Cfg 10 c5Store) = some n1 ∧
      daysIdle 10 n1 ≤ c5Cfg.stale_days ∧
      n1.confidence = 1/4 ∧
      (∃ n2, lookupNode 0 (dream c5Cfg 10 (dream c5Cfg 10 c5Store)) = some n2 ∧
        n2.id = n1.id ∧ n2.confidence = 1/2 ∧ n2.confidence ≠ n1.confidence)) := by
  have hdecA : decayNode c5Cfg 10 c5NodeA = c5NodeA := by
    unfold decayNode
    rw [if_neg (by norm_num [c5Cfg, daysIdle, c5NodeA])]
  have hdecB : decayNode c5Cfg 10 c5NodeB = c5NodeB := by
    unfold decayNode
    rw [if_neg (by norm_num [c5Cfg, daysIdle, c5NodeB])]
  have hdstage : (decayStage c5Cfg 10 c5Store).nodes = [c5NodeA, c5NodeB] := by
    show c5Store.nodes.map (decayNode c5Cfg 10) = _
    simp [c5Store, hdecA, hdecB]
  have hlookB : lookupNode 1 (decayStage c5Cfg 10 c5Store) = some c5NodeB := by
    unfold lookupNode
    rw [hdstage, List.find?_cons_of_neg _ (by simp [c5NodeA]),
        List.find?_cons_of_pos _ (by simp [c5NodeB])]
  have hlookA : lookupNode 0 (decayStage c5Cfg 10 c5Store) = some c5NodeA := by
    unfold lookupNode
    rw [hdstage, List.find?_cons_of_pos _ (by simp [c5NodeA])]
  have hqA : qualifiesEdge c5Cfg (decayStage c5Cfg 10 c5Store) c5NodeA c5Edge = true := by
    have hother : otherEnd c5NodeA c5Edge = 1 := by
      unfold otherEnd
      simp [c5Edge, c5NodeA]
    have hdtrue : decide (c5Cfg.min_confidence < c5NodeB.confidence) = true := by
      rw [decide_eq_true_eq]
      norm_num [c5Cfg, c5NodeB]
    unfold qualifiesEdge
    rw [hother, hlookB]
    simp [c5Edge, c5NodeA, hdtrue]
  have hnqB : qualifiesEdge c5Cfg (decayStage c5Cfg 10 c5Store) c5NodeB c5Edge = false := by
    have hother : otherEnd c5NodeB c5Edge = 0 := by
      unfold otherEnd
      simp [c5Edge, c5NodeB]
    have hdfalse : decide (c5Cfg.min_confidence < c5NodeA.confidence) = false := by
      rw [decide_eq_false_iff_not]
      norm_num [c5Cfg, c5NodeA]
    unfold qualifiesEdge
    rw [hother, hlookA]
    simp [hdfalse]
  have hsumA : boostSum c5Cfg (decayStage c5Cfg 10 c5Store) c5NodeA = 1/4 := by
    unfold boostSum
    have hfil : (decayStage c5Cfg 10 c5Store).edges.filter
        (qualifiesEdge c5Cfg (decayStage c5Cfg 10 c5Store) c5NodeA) = [c5Edge] := by
      show List.filter _ [c5Edge] = [c5Edge]
      simp [hqA]
    rw [hfil]
    show c5Edge.weight * c5Cfg.boost_factor + 0 = 1/4
    norm_num [c5Edge, c5Cfg]
  have hA1conf : (dreamNode c5Cfg 10 c5Store c5NodeA).confidence = 1/4 := by
    have h1 : (dreamNode c5Cfg 10 c5Store c5NodeA).confidence
        = min 1 ((decayNode c5Cfg 10 c5NodeA).confidence
            + boostSum c5Cfg (decayStage c5Cfg 10 c5Store)
                (decayNode c5Cfg 10 c5NodeA)) := rfl
    rw [hdecA, hsumA, show c5NodeA.confidence = 0 from rfl, zero_add] at h1
    rw [h1]
    exact min_eq_right (by norm_num)
  have hB1conf : (dreamNode c5Cfg 10 c5Store c5NodeB).confidence = 1 := by
    have h1 : (dreamNode c5Cfg 10 c5Store c5NodeB).confidence
        = min 1 ((decayNode c5Cfg 10 c5NodeB).confidence
            + boostSum c5Cfg (decayStage c5Cfg 10 c5Store)
                (decayNode c5Cfg 10 c5NodeB)) := rfl
    have hsumB : boostSum c5Cfg (decayStage c5Cfg 10 c5Store) c5NodeB = 0 := by
      apply boostSum_eq_zero
      intro e he
      have he2 : e ∈ [c5Edge] := he
      rw [List.mem_singleton.mp he2]
      exact hnqB
    rw [hdecB, hsumB, add_zero, show c5NodeB.confidence = 1 from rfl, min_self] at h1
    exact h1
  have hs1nodes : (dream c5Cfg 10 c5Store).nodes
      = [dreamNode c5Cfg 10 c5Store c5NodeA, dreamNode c5Cfg 10 c5Store c5NodeB] := by
    rw [dream_nodes_map]
    simp [c5Store]
  have hlook1 : lookupNode 0 (dream c5Cfg 10 c5Store)
      = some (dreamNode c5Cfg 10 c5Store c5NodeA) := by
    unfold lookupNode
    rw [hs1nodes, List.find?_cons_of_pos _ (by simp [dreamNode_id, c5NodeA])]
  -- the second pass, on s1 := dream c5Cfg 10 c5Store
  have hdecA1 : decayNode c5Cfg 10 (dreamNode c5Cfg 10 c5Store c5NodeA)
      = dreamNode c5Cfg 10 c5Store c5NodeA := by
    unfold decayNode
    rw [if_neg]
    rw [not_lt]
    unfold daysIdle
    rw [dreamNode_last_accessed]
    norm_num [c5Cfg, c5NodeA]
  have hdecB1 : decayNode c5Cfg 10 (dreamNode c5Cfg 10 c5Store c5NodeB)
      = dreamNode c5Cfg 10 c5Store c5NodeB := by
    unfold decayNode
    rw [if_neg]
    rw [not_lt]
    unfold daysIdle
    rw [dreamNode_last_accessed]
    norm_num [c5Cfg, c5NodeB]
  have hdstage1 : (decayStage c5Cfg 10 (dream c5Cfg 10 c5Store)).nodes
      = [dreamNode c5Cfg 10 c5Store c5NodeA, dreamNode c5Cfg 10 c5Store c5NodeB] := by
    show (dream c5Cfg 10 c5Store).nodes.map (decayNode c5Cfg 10) = _
    rw [hs1nodes]
    simp [hdecA1, hdecB1]
  have hlookB1 : lookupNode 1 (decayStage c5Cfg 10 (dream c5Cfg 10 c5Store))
      = some (dreamNode c5Cfg 10 c5Store c5NodeB) := by
    unfold lookupNode
    rw [hdstage1, List.find?_cons_of_neg _ (by simp [dreamNode_id, c5NodeA]),
        List.find?_cons_of_pos _ (by simp [dreamNode_id, c5NodeB])]
  have hqA1 : qualifiesEdge c5Cfg (decayStage c5Cfg 10 (dream c5Cfg 10 c5Store))
      (dreamNode c5Cfg 10 c5Store c5NodeA) c5Edge = true := by
    have hother : otherEnd (dreamNode c5Cfg 10 c5Store c5NodeA) c5Edge = 1 := by
      unfold otherEnd
      simp [c5Edge, dreamNode_id, c5NodeA]
    have hdtrue : decide (c5Cfg.min_confidence
        < (dreamNode c5Cfg 10 c5Store c5NodeB).confidence) = true := by
      rw [decide_eq_true_eq, hB1conf]
      norm_num [c5Cfg]
    unfold qualifiesEdge
    rw [hother, hlookB1]
    simp [c5Edge, dreamNode_id, c5NodeA, hdtrue]
  have hsumA1 : boostSum c5Cfg (decayStage c5Cfg 10 (dream c5Cfg 10 c5Store))
      (dreamNode c5Cfg 10 c5Store c5NodeA) = 1/4 := by
    unfold boostSum
    have hfil : (decayStage c5Cfg 10 (dream c5Cfg 10 c5Store)).edges.filter
        (qualifiesEdge c5Cfg (decayStage c5Cfg 10 (dream c5Cfg 10 c5Store))
          (dreamNode c5Cfg 10 c5Store c5NodeA)) = [c5Edge] := by
      show List.filter _ [c5Edge] = [c5Edge]
      simp [hqA1]
    rw [hfil]
    show c5Edge.weight * c5Cfg.boost_factor + 0 = 1/4
    norm_num [c5Edge, c5Cfg]
  have hA2conf : (dreamNode c5Cfg 10 (dream c5Cfg 10 c5Store)
      (dreamNode c5Cfg 10 c5Store c5NodeA)).confidence = 1/2 := by
    have h1 : (dreamNode c5Cfg 10 (dream c5Cfg 10 c5Store)
        (dreamNode c5Cfg 10 c5Store c5NodeA)).confidence
        = min 1 ((decayNode c5Cfg 10 (dreamNode c5Cfg 10 c5Store c5NodeA)).confidence
            + boostSum c5Cfg (decayStage c5Cfg 10 (dream c5Cfg 10 c5Store))
                (decayNode c5Cfg 10 (dreamNode c5Cfg 10 c5Store c5NodeA))) := rfl
    rw [hdecA1, hsumA1, hA1conf] at h1
    rw [h1, show (1:ℚ)/4 + 1/4 = 1/2 from by norm_num]
    exact min_eq_right (by norm_num)
  have hlook2 : lookupNode 0 (dream c5Cfg 10 (dream c5Cfg 10 c5Store))
      = some (dreamNode c5Cfg 10 (dream c5Cfg 10 c5Store)
          (dreamNode c5Cfg 10 c5Store c5NodeA)) := by
    unfold lookupNode
    rw [dream_nodes_map, hs1nodes]
    rw [show List.map (dreamNode c5Cfg 10 (dream c5Cfg 10 c5Store))
        [dreamNode c5Cfg 10 c5Store c5NodeA, dreamNode c5Cfg 10 c5Store c5NodeB]
       = [dreamNode c5Cfg 10 (dream c5Cfg 10 c5Store) (dreamNode c5Cfg 10 c5Store c5NodeA),
          dreamNode c5Cfg 10 (dream c5Cfg 10 c5Store) (dreamNode c5Cfg 10 c5Store c5NodeB)]
       from rfl]
    rw [List.find?_cons_of_pos _ (by simp [dreamNode_id, c5NodeA])]
  refine ⟨by unfold DreamConfig.Valid c5Cfg; norm_num,
    dreamNode c5Cfg 10 c5Store c5NodeA, hlook1, ?_, hA1conf,
    dreamNode c5Cfg 10 (dream c5Cfg 10 c5Store) (dreamNode c5Cfg 10 c5Store c5NodeA),
    hlook2, ?_, hA2conf, ?_⟩
  · unfold daysIdle
    rw [dreamNode_last_accessed]
    norm_num [c5Cfg, c5NodeA]
  · rw [dreamNode_id]
  · rw [hA2conf, hA1conf]
    norm_num

end MoltKG
